import Mathlib

/-!
Verification of the microbi HTTP/API server dispatcher (src/microbi.js).

The development shallowly embeds the pure core of `microbi.js`:

* `validatePath` — the path validator built from `VALID_PATH_REGEX`
  (`/^[\./_\-\d\w]*$/`) and `DISALLOWED_PATH_REGEX` (`/(\.\.)|(\/\.)/`).
* `urlParse` — the pathname/query split performed by `url.parse(request.url, true)`
  (legacy Node parser: the fragment starts at the first `#`; the query starts at
  the first `?` before the fragment; the pathname is what precedes both).
* `getRoutes` / `route` — the route resolver.  The file `lib/router.js` that
  `microbi.js` requires is not part of the sources, so these two functions are
  modelled from the specification of the Route Resolver (split the path on `/`
  into segments with no empty segments at the ends, append the method, then walk
  the registry with exact string equality; a missing key or a terminal value
  that is not a handler yields not-found).
* `onRequest` — the request dispatcher, embedded as a function from the server
  configuration, a filesystem oracle and the request to the ordered list of
  observable effects performed on the response.  The order of effects follows
  the single-threaded Node event model: the synchronous body of `onRequest`
  runs to completion first, and the asynchronous stream callbacks
  (`request.on('data'/'end')`, `readStream.on('error'/'end')`) fire afterwards.
  In particular `fs.createReadStream` never reports an open error synchronously,
  so the `response.writeHead(200, ...)` on line 163 of the source always runs
  before the `error` callback registered on line 157 can run.

Three control-flow facts of the source are reproduced exactly because theorems
below depend on them:

* the streaming-handler branch (line 116) has no `return`, so after invoking a
  streaming handler the dispatcher falls through to the static-file section;
* the disabled-static-server branch (line 141) has no `return`, so after the
  404 the dispatcher still runs the method check and, for GET, the file open;
* the buffered-handler branch ends in `return` (line 135), so a buffered
  handler does short-circuit the static section.
-/

namespace Microbi

/-! ## Path validator (microbi.js lines 224–240) -/

/-- One character of the class `[\./_\-\d\w]` of `VALID_PATH_REGEX`:
dot, slash, underscore, hyphen, an ASCII digit (`\d`) or an ASCII word
character (`\w` = letters, digits, underscore). -/
def allowedChar (c : Char) : Bool :=
  c == '.' || c == '/' || c == '_' || c == '-' || c.isDigit || c.isAlpha

/-- `containsPair a b cs` holds when the two-character string `ab` occurs in
`cs`; used for the regex `(\.\.)|(\/\.)`. -/
def containsPair (a b : Char) : List Char → Bool
  | [] => false
  | [_] => false
  | c :: d :: rest => (c == a && d == b) || containsPair a b (d :: rest)

/-- `validatePath` (microbi.js line 237): reject when `DISALLOWED_PATH_REGEX`
(contains `..` or `/.`) matches, otherwise accept exactly when
`VALID_PATH_REGEX` matches the whole string. -/
def validatePath (p : String) : Bool :=
  if containsPair '.' '.' p.data || containsPair '/' '.' p.data then false
  else p.data.all allowedChar

/-! ## URL parsing (legacy `url.parse`, used on microbi.js line 70) -/

/-- The parsed request URL: the pathname and the raw query string. -/
structure ReqUrl where
  pathname : String
  query : String
deriving DecidableEq, Repr

/-- The pathname/query split of the legacy Node URL parser for
server-relative request URLs: everything from the first `#` on is the
fragment; within the part before it, everything from the first `?` on is the
query; the pathname is what precedes the `?`. -/
def urlParse (u : String) : ReqUrl :=
  let beforeHash := u.data.takeWhile (fun c => c ≠ '#')
  let p := beforeHash.takeWhile (fun c => c ≠ '?')
  let q := (beforeHash.dropWhile (fun c => c ≠ '?')).drop 1
  ⟨String.mk p, String.mk q⟩

/-! ## Route resolver -/

/-- An api function stored in the registry: the buffered call form together
with the `stream` marker property. -/
structure ApiFunction where
  stream : Bool
  fn : ReqUrl → String → String

/-- A node of the handler registry: either a leaf holding an api function, or
an inner object mapping segment names to child nodes. -/
inductive ApiNode where
  | leaf (h : ApiFunction)
  | node (children : List (String × ApiNode))

/-- Modelled from the spec: property lookup in a registry object
(`lib/router.js` is absent from the sources).  Exact string equality on the
key, first match wins. -/
def findChild (key : String) : List (String × ApiNode) → Option ApiNode
  | [] => none
  | (k, n) :: rest => if k = key then some n else findChild key rest

/-- Modelled from the spec: `router.route` of the absent `lib/router.js`.
Walks the registry matching each segment with exact string equality; a
missing key, segments left over at a leaf, or a terminal value that is not a
handler function all yield not-found. -/
def route : List String → ApiNode → Option ApiFunction
  | [], ApiNode.leaf h => some h
  | [], ApiNode.node _ => none
  | _ :: _, ApiNode.leaf _ => none
  | s :: rest, ApiNode.node children =>
    match findChild s children with
    | none => none
    | some n => route rest n

/-- Split a character list on a separator character (plain split: `n`
separators yield `n+1` pieces, empty pieces included). -/
def splitOnChar (sep : Char) : List Char → List (List Char)
  | [] => [[]]
  | c :: rest =>
    let r := splitOnChar sep rest
    if c = sep then [] :: r
    else
      match r with
      | [] => [[c]]
      | s :: ss => (c :: s) :: ss

/-- Modelled from the spec: `router.getRoutes` of the absent `lib/router.js`.
Splits the pathname on `/` into segments — leading and trailing slashes
produce no empty segments at the ends, internal structure is preserved — and
appends the request method as the final segment. -/
def getRoutes (pathname method : String) : List String :=
  let segs := (splitOnChar '/' pathname.data).map String.mk
  let segs := segs.dropWhile (fun s => s == "")
  let segs := (segs.reverse.dropWhile (fun s => s == "")).reverse
  segs ++ [method]

/-- A single-path registry: the handler `h` registered at exactly the
segment sequence `ps` and nothing else. -/
def chainReg (ps : List String) (h : ApiFunction) : ApiNode :=
  match ps with
  | [] => ApiNode.leaf h
  | s :: rest => ApiNode.node [(s, chainReg rest h)]

/-! ## Request dispatcher (microbi.js lines 66–169) -/

/-- The observable actions the dispatcher performs on the response (and the
file system), in program order. -/
inductive Effect where
  /-- `response.writeHead(status, headers)`; the content-type header value if
  one is set (Node leaves the header unset when the looked-up value is
  undefined). -/
  | writeHead (status : Nat) (contentType : Option String)
  /-- `response.end(body)`. -/
  | endBody (body : String)
  /-- `response.end()` with no body, after the file stream ended. -/
  | endStream
  /-- a streaming api handler is invoked with the raw request/response
  streams. -/
  | invokeStream
  /-- `fs.createReadStream(name)`: the file open is attempted. -/
  | openFile (name : String)
  /-- `readStream.pipe(response)`. -/
  | pipeFile (name : String)
deriving DecidableEq, Repr

/-- `respond404` (microbi.js line 247). -/
def respond404 : List Effect :=
  [Effect.writeHead 404 none, Effect.endBody "404 Not found."]

/-- `respond405` (microbi.js line 257). -/
def respond405 : List Effect :=
  [Effect.writeHead 405 none, Effect.endBody "405 Method not allowed."]

/-- The process-wide server configuration read by the dispatcher: the
installed api registry (null when unset), the static-server flag, and the
default api content type. -/
structure Config where
  api : Option ApiNode
  staticServer : Bool
  apiContentType : String

/-- An incoming request: method, raw URL, and the body chunks in arrival
order. -/
structure Request where
  method : String
  url : String
  bodyChunks : List String

/-- The body accumulation of the buffered branch (microbi.js lines 121–125):
`requestBody` starts empty and each `data` chunk is appended in arrival
order. -/
def accumulateBody (chunks : List String) : String :=
  chunks.foldl (fun acc c => acc ++ c) ""

/-- The static-file section of the dispatcher (microbi.js lines 139–168),
reached when no api function matched, when the registry is null, and — by
fall-through — after a streaming handler was invoked.  `fsOk` tells whether
opening a given file name succeeds.  Lines 156–165 run synchronously:
the open is attempted, the 200 head with the looked-up content type is
written, and the pipe is attached, before the asynchronous `error` or `end`
callback can fire. -/
def staticSection (cfg : Config) (fsOk : String → Bool)
    (extOf : String → String) (mimeLookup : String → Option String)
    (method pathname : String) : List Effect :=
  (if cfg.staticServer then [] else respond404) ++
  (if method ≠ "GET" then respond405
   else
     let fileToServe := if pathname = "/" then "index.html" else "." ++ pathname
     [Effect.openFile fileToServe,
      Effect.writeHead 200 (mimeLookup (extOf fileToServe)),
      Effect.pipeFile fileToServe] ++
     (if fsOk fileToServe then [Effect.endStream] else respond404))

/-- `onRequest` (microbi.js lines 66–169) as the ordered list of observable
effects for one request.  `extOf` and `mimeLookup` stand for the external
collaborators `path.extname(f).replace('.','')` and the mime table. -/
def onRequest (cfg : Config) (fsOk : String → Bool)
    (extOf : String → String) (mimeLookup : String → Option String)
    (req : Request) : List Effect :=
  let reqUrl := urlParse req.url
  let pathname := reqUrl.pathname
  if validatePath pathname = false then respond404
  else
    match cfg.api with
    | some apiRoot =>
      match route (getRoutes pathname req.method) apiRoot with
      | some apiFunction =>
        if apiFunction.stream then
          -- no return in the source: after invoking the streaming handler the
          -- dispatcher falls through to the static section
          Effect.invokeStream ::
            staticSection cfg fsOk extOf mimeLookup req.method pathname
        else
          -- buffered branch: collect the body, then answer; ends in return
          [Effect.writeHead 200 (some cfg.apiContentType),
           Effect.endBody (apiFunction.fn reqUrl (accumulateBody req.bodyChunks))]
      | none => staticSection cfg fsOk extOf mimeLookup req.method pathname
    | none => staticSection cfg fsOk extOf mimeLookup req.method pathname

/-- The status of the first `writeHead` in a trace: Node renders the header
block at the first `writeHead`, and every later `writeHead` on the same
response throws, so this is the status the client can receive. -/
def firstHeadStatus : List Effect → Option Nat
  | [] => none
  | Effect.writeHead s _ :: _ => some s
  | _ :: rest => firstHeadStatus rest

/-! ## Helper lemmas -/

theorem containsPair_eq_true_iff (a b : Char) (cs : List Char) :
    containsPair a b cs = true ↔ [a, b] <:+: cs := by
  induction cs with
  | nil => simp [containsPair]
  | cons c rest ih =>
    cases rest with
    | nil =>
      simp only [containsPair, Bool.false_eq_true, false_iff]
      intro h
      have := h.length_le
      simp at this
    | cons d rest2 =>
      rw [containsPair]
      simp only [Bool.or_eq_true, Bool.and_eq_true, beq_iff_eq, ih, List.infix_cons_iff,
        List.cons_prefix_cons, List.nil_prefix, and_true]
      constructor
      · rintro (⟨rfl, rfl⟩ | h)
        · exact Or.inl ⟨rfl, rfl⟩
        · exact Or.inr h
      · rintro (⟨rfl, rfl⟩ | h)
        · exact Or.inl ⟨rfl, rfl⟩
        · exact Or.inr h

theorem containsPair_eq_false_iff (a b : Char) (cs : List Char) :
    containsPair a b cs = false ↔ ¬ ([a, b] <:+: cs) := by
  rw [← containsPair_eq_true_iff]
  cases h : containsPair a b cs <;> simp [h]

theorem allowedChar_eq_true_iff (c : Char) :
    allowedChar c = true ↔
      (c.isAlpha = true ∨ c.isDigit = true ∨ c = '.' ∨ c = '-' ∨ c = '_' ∨ c = '/') := by
  simp only [allowedChar, Bool.or_eq_true, beq_iff_eq]
  tauto

theorem validatePath_eq_true_iff (p : String) :
    validatePath p = true ↔
      containsPair '.' '.' p.data = false ∧ containsPair '/' '.' p.data = false ∧
        p.data.all allowedChar = true := by
  unfold validatePath
  cases h1 : containsPair '.' '.' p.data <;> cases h2 : containsPair '/' '.' p.data <;> simp

theorem le_toNat_of_allowedChar (c : Char) (h : allowedChar c = true) : 32 ≤ c.toNat := by
  rw [allowedChar_eq_true_iff] at h
  have hval : ∀ m : Nat, m < UInt32.size → (UInt32.ofNat m) ≤ c.val → m ≤ c.toNat :=
    fun m hm => UInt32.le_toNat_of_le hm
  rcases h with h | h | h | h | h | h
  · simp only [Char.isAlpha, Char.isUpper, Char.isLower, Bool.or_eq_true, Bool.and_eq_true,
      decide_eq_true_eq] at h
    rcases h with ⟨h, _⟩ | ⟨h, _⟩
    · have := hval 65 (by decide) h
      omega
    · have := hval 97 (by decide) h
      omega
  · simp only [Char.isDigit, Bool.and_eq_true, decide_eq_true_eq] at h
    have := hval 48 (by decide) h.1
    omega
  all_goals (subst h; decide)

theorem validatePath_eq_false_of_bad (p : String) (c : Char) (hc : c ∈ p.data)
    (hbad : allowedChar c = false) : validatePath p = false := by
  unfold validatePath
  split
  · rfl
  · exact List.all_eq_false.2 ⟨c, hc, by simp [hbad]⟩

end Microbi

namespace Microbi

/-! ## Claims about the path validator -/

/-- C3: `validatePath p` returns true exactly when `p` contains no occurrence
of `..`, no occurrence of `/.`, and every character of `p` is a letter, a
digit, a dot, a hyphen, an underscore or a forward slash; in particular any
`p` containing a space, `?`, `%`, `<` or a control character (code point
below 32) is rejected. -/
theorem validatePath_characterization (p : String) :
    (validatePath p = true ↔
      ¬ (['.', '.'] <:+: p.data) ∧ ¬ (['/', '.'] <:+: p.data) ∧
        ∀ c ∈ p.data,
          c.isAlpha = true ∨ c.isDigit = true ∨ c = '.' ∨ c = '-' ∨ c = '_' ∨ c = '/') ∧
    (∀ c ∈ p.data, (c = ' ' ∨ c = '?' ∨ c = '%' ∨ c = '<' ∨ c.toNat < 32) →
      validatePath p = false) := by
  constructor
  · rw [validatePath_eq_true_iff, containsPair_eq_false_iff, containsPair_eq_false_iff]
    simp only [List.all_eq_true, and_congr_right_iff]
    intro _ _
    constructor
    · intro h c hc
      exact (allowedChar_eq_true_iff c).1 (h c hc)
    · intro h c hc
      exact (allowedChar_eq_true_iff c).2 (h c hc)
  · intro c hc hbad
    apply validatePath_eq_false_of_bad p c hc
    rcases hbad with rfl | rfl | rfl | rfl | h
    · decide
    · decide
    · decide
    · decide
    · cases hall : allowedChar c
      · rfl
      · have := le_toNat_of_allowedChar c hall
        omega

/-- C3 witness: applying the characterization at the concrete path `"a b"`
shows the validator rejects a path containing a space. -/
theorem validatePath_characterization_witness : validatePath "a b" = false :=
  (validatePath_characterization "a b").2 ' ' (by decide) (by decide)

/-- C10: the validator accepts the empty string: no disallowed sequence
occurs in it and the allowed-character condition holds vacuously. -/
theorem validatePath_empty : validatePath "" = true := by decide

/-! ## Claims about the route resolver -/

theorem route_chainReg (h : ApiFunction) (ps : List String) :
    ∀ segs : List String, route segs (chainReg ps h) = some h ↔ segs = ps := by
  induction ps with
  | nil =>
    intro segs
    cases segs with
    | nil => simp [chainReg, route]
    | cons s rest => simp [chainReg, route]
  | cons p ps ih =>
    intro segs
    cases segs with
    | nil => simp [chainReg, route]
    | cons s rest =>
      simp only [chainReg, route, findChild]
      by_cases hs : p = s
      · subst hs
        simp [ih rest]
      · simp only [if_neg hs]
        simp only [List.cons.injEq]
        exact iff_of_false (fun hcon => Option.noConfusion hcon)
          (fun hcon => hs (Eq.symm hcon.1))

/-- An example buffered handler: echoes the request body. -/
def echoFn : ApiFunction := ⟨false, fun _ b => b⟩

/-- C6: route resolution is exact-match and order-sensitive over path
segments with the method appended as the final segment.  In a registry whose
only handler sits at segments `["a","b","GET"]`, the requests `POST /a/b`
and `GET /a` resolve to not-found, and in general a segment sequence
resolves to that handler exactly when it equals `["a","b","GET"]`: exact
string equality, no wildcards, no case-folding, no trailing-slash
equivalence. -/
theorem route_exact_match (hf : ApiFunction) :
    route (getRoutes "/a/b" "POST") (chainReg ["a", "b", "GET"] hf) = none ∧
    route (getRoutes "/a" "GET") (chainReg ["a", "b", "GET"] hf) = none ∧
    getRoutes "/a/b" "GET" = ["a", "b", "GET"] ∧
    ∀ segs : List String,
      route segs (chainReg ["a", "b", "GET"] hf) = some hf ↔ segs = ["a", "b", "GET"] :=
  ⟨rfl, rfl, rfl, route_chainReg hf ["a", "b", "GET"]⟩

/-- C6 witness: the exact-match statement applied to the concrete echo
handler, at the matching segment sequence and at the two non-matching
requests. -/
theorem route_exact_match_witness :
    route (getRoutes "/a/b" "POST") (chainReg ["a", "b", "GET"] echoFn) = none ∧
    route (getRoutes "/a" "GET") (chainReg ["a", "b", "GET"] echoFn) = none ∧
    route ["a", "b", "GET"] (chainReg ["a", "b", "GET"] echoFn) = some echoFn :=
  ⟨(route_exact_match echoFn).1, (route_exact_match echoFn).2.1,
    ((route_exact_match echoFn).2.2.2 ["a", "b", "GET"]).2 rfl⟩

/-! ## Claims about the request dispatcher -/

/-- An example streaming handler (its buffered call form is irrelevant). -/
def streamFn : ApiFunction := ⟨true, fun _ _ => ""⟩

/-- A registry holding the streaming handler at `GET /a`. -/
def streamApi : ApiNode := chainReg ["a", "GET"] streamFn

/-- C1 (failing input): with the streaming handler `streamFn` registered at
`GET /a`, static serving enabled and the file `./a` present, the dispatcher
invokes the streaming handler and then — because the branch on line 116 of
microbi.js has no `return` — still executes the static-file fallback for the
same request: it opens `./a`, writes a 200 head and pipes the file into the
response the handler owns.  The claim that a matched API handler always
short-circuits static serving is therefore false on the code. -/
theorem streaming_handler_falls_through_to_static :
    onRequest ⟨some streamApi, true, "text/plain"⟩ (fun _ => true) (fun _ => "")
        (fun _ => none) ⟨"GET", "/a", []⟩ =
      [Effect.invokeStream, Effect.openFile "./a", Effect.writeHead 200 none,
       Effect.pipeFile "./a", Effect.endStream] := rfl

/-- C2 (failing input): with the registry unset and static serving disabled,
a `POST /x` request makes the dispatcher emit the 404 — and then, because
line 141 of microbi.js has no `return`, also emit the 405; a `GET /x`
request likewise falls through and attempts the file open of `./x` after the
404.  The claim that the dispatcher terminates after the 404 is therefore
false on the code. -/
theorem disabled_static_404_falls_through :
    (onRequest ⟨none, false, "text/plain"⟩ (fun _ => false) (fun _ => "")
        (fun _ => none) ⟨"POST", "/x", []⟩ =
      [Effect.writeHead 404 none, Effect.endBody "404 Not found.",
       Effect.writeHead 405 none, Effect.endBody "405 Method not allowed."]) ∧
    Effect.openFile "./x" ∈ onRequest ⟨none, false, "text/plain"⟩ (fun _ => false)
        (fun _ => "") (fun _ => none) ⟨"GET", "/x", []⟩ := by
  constructor
  · decide
  · decide

/-- C4 (failing input): `GET /missing.txt` with the registry unset, static
serving enabled and the open of `./missing.txt` failing.  Line 163 of
microbi.js writes the 200 head synchronously, before the asynchronous open
error can fire, so the first — and only deliverable — status of the trace is
200; the 404 head of the error callback comes after headers were already
rendered.  The claim that the client receives a 404 and no 200 status is
sent is therefore false on the code. -/
theorem static_open_error_sends_200_first :
    (onRequest ⟨none, true, "text/plain"⟩ (fun _ => false) (fun _ => "txt")
        (fun _ => some "text/plain") ⟨"GET", "/missing.txt", []⟩ =
      [Effect.openFile "./missing.txt", Effect.writeHead 200 (some "text/plain"),
       Effect.pipeFile "./missing.txt", Effect.writeHead 404 none,
       Effect.endBody "404 Not found."]) ∧
    firstHeadStatus (onRequest ⟨none, true, "text/plain"⟩ (fun _ => false)
        (fun _ => "txt") (fun _ => some "text/plain") ⟨"GET", "/missing.txt", []⟩) =
      some 200 := by
  constructor
  · decide
  · decide

/-- C5: a request routed to a buffered handler yields exactly: the body
chunks concatenated in arrival order into one buffer, then — after
end-of-stream — status 200 written with the configured default api content
type, the handler's return value on (parsed URL, full body text) written as
the body, and the response closed.  No static-file effect occurs: the
buffered branch ends in `return` (line 135 of microbi.js). -/
theorem buffered_handler_response (cfg : Config) (fsOk : String → Bool)
    (extOf : String → String) (mimeLookup : String → Option String) (req : Request)
    (apiRoot : ApiNode) (f : ApiFunction)
    (hv : validatePath (urlParse req.url).pathname = true)
    (hapi : cfg.api = some apiRoot)
    (hroute : route (getRoutes (urlParse req.url).pathname req.method) apiRoot = some f)
    (hbuf : f.stream = false) :
    onRequest cfg fsOk extOf mimeLookup req =
      [Effect.writeHead 200 (some cfg.apiContentType),
       Effect.endBody (f.fn (urlParse req.url)
         (req.bodyChunks.foldl (fun acc c => acc ++ c) ""))] := by
  simp only [onRequest, hv, hapi, hroute, hbuf, accumulateBody, Bool.true_eq_false,
    if_false, Bool.false_eq_true]

/-- A registry holding the echo handler at `POST /echo`. -/
def echoApi : ApiNode := chainReg ["echo", "POST"] echoFn

/-- C5 witness: the echo handler at `POST /echo`, sent the body chunks
`"he"`, `"llo"`, answers 200 with the configured content type and body
`"hello"`. -/
theorem buffered_handler_response_witness :
    validatePath (urlParse "/echo").pathname = true ∧
    route (getRoutes (urlParse "/echo").pathname "POST") echoApi = some echoFn ∧
    echoFn.stream = false ∧
    onRequest ⟨some echoApi, true, "text/plain"⟩ (fun _ => true) (fun _ => "")
        (fun _ => none) ⟨"POST", "/echo", ["he", "llo"]⟩ =
      [Effect.writeHead 200 (some "text/plain"), Effect.endBody "hello"] :=
  ⟨by decide, rfl, rfl,
    buffered_handler_response ⟨some echoApi, true, "text/plain"⟩ (fun _ => true)
      (fun _ => "") (fun _ => none) ⟨"POST", "/echo", ["he", "llo"]⟩ echoApi echoFn
      (by decide) rfl rfl rfl⟩

/-- No streaming-handler invocation occurs inside the static section: that
effect is produced only by the api branch of the dispatcher. -/
theorem invokeStream_not_mem_staticSection (cfg : Config) (fsOk : String → Bool)
    (extOf : String → String) (mimeLookup : String → Option String)
    (method pathname : String) :
    Effect.invokeStream ∉ staticSection cfg fsOk extOf mimeLookup method pathname := by
  unfold staticSection
  intro hmem
  rcases List.mem_append.1 hmem with h | h
  · split at h
    · exact List.not_mem_nil _ h
    · simp [respond404] at h
  · split at h
    · simp [respond405] at h
    · simp only [List.mem_append, List.mem_cons, List.not_mem_nil, or_false] at h
      rcases h with (h | h | h) | h
      · exact Effect.noConfusion h
      · exact Effect.noConfusion h
      · exact Effect.noConfusion h
      · split_ifs at h <;> simp [respond404] at h

/-- C7 (amended): with the registry unset, the dispatcher never invokes an
api handler, and every request whose path passes validation is handled by
the static-fallback section (which applies its own gating). -/
theorem null_api_static_fallback (cfg : Config) (fsOk : String → Bool)
    (extOf : String → String) (mimeLookup : String → Option String) (req : Request)
    (hapi : cfg.api = none) :
    Effect.invokeStream ∉ onRequest cfg fsOk extOf mimeLookup req ∧
    (validatePath (urlParse req.url).pathname = true →
      onRequest cfg fsOk extOf mimeLookup req =
        staticSection cfg fsOk extOf mimeLookup req.method (urlParse req.url).pathname) := by
  have hmain : onRequest cfg fsOk extOf mimeLookup req =
      (if validatePath (urlParse req.url).pathname = false then respond404
       else staticSection cfg fsOk extOf mimeLookup req.method (urlParse req.url).pathname) := by
    simp only [onRequest, hapi]
  constructor
  · rw [hmain]
    split
    · simp [respond404]
    · exact invokeStream_not_mem_staticSection cfg fsOk extOf mimeLookup req.method
        (urlParse req.url).pathname
  · intro hv
    rw [hmain, hv]
    simp

/-- C7 counterexample: at the concrete request `GET /..` with the registry
unset and static serving enabled, the dispatcher answers the validation 404
and the static-fallback stage never runs — had it run, its gating (static
serving on, method GET) would have attempted the file open of `./..`.  So
the claim that static fallback executes for every request when the registry
is null is false as stated. -/
theorem null_api_invalid_path_no_static_fallback :
    (onRequest ⟨none, true, "text/plain"⟩ (fun _ => true) (fun _ => "")
        (fun _ => none) ⟨"GET", "/..", []⟩ =
      [Effect.writeHead 404 none, Effect.endBody "404 Not found."]) ∧
    Effect.openFile "./.." ∉ onRequest ⟨none, true, "text/plain"⟩ (fun _ => true)
        (fun _ => "") (fun _ => none) ⟨"GET", "/..", []⟩ := by
  constructor
  · decide
  · decide

/-- C7 witness: the amended statement applied at the concrete request
`GET /page.html` with the registry unset. -/
theorem null_api_static_fallback_witness :
    Effect.invokeStream ∉ onRequest ⟨none, true, "text/plain"⟩ (fun _ => true)
        (fun _ => "") (fun _ => none) ⟨"GET", "/page.html", []⟩ ∧
    onRequest ⟨none, true, "text/plain"⟩ (fun _ => true) (fun _ => "")
        (fun _ => none) ⟨"GET", "/page.html", []⟩ =
      staticSection ⟨none, true, "text/plain"⟩ (fun _ => true) (fun _ => "")
        (fun _ => none) "GET" "/page.html" :=
  ⟨(null_api_static_fallback ⟨none, true, "text/plain"⟩ (fun _ => true) (fun _ => "")
      (fun _ => none) ⟨"GET", "/page.html", []⟩ rfl).1,
    (null_api_static_fallback ⟨none, true, "text/plain"⟩ (fun _ => true) (fun _ => "")
      (fun _ => none) ⟨"GET", "/page.html", []⟩ rfl).2 (by decide)⟩

/-- C8: a request with a valid path, a non-GET method, no matching api
handler and static serving enabled is answered 405 with body
`405 Method not allowed.`, and no file open is attempted. -/
theorem static_non_get_405 (cfg : Config) (fsOk : String → Bool)
    (extOf : String → String) (mimeLookup : String → Option String) (req : Request)
    (hv : validatePath (urlParse req.url).pathname = true)
    (hm : req.method ≠ "GET")
    (hs : cfg.staticServer = true)
    (hnomatch : ∀ apiRoot, cfg.api = some apiRoot →
      route (getRoutes (urlParse req.url).pathname req.method) apiRoot = none) :
    onRequest cfg fsOk extOf mimeLookup req = respond405 ∧
      ∀ n, Effect.openFile n ∉ onRequest cfg fsOk extOf mimeLookup req := by
  have hmain : onRequest cfg fsOk extOf mimeLookup req = respond405 := by
    have hstat : staticSection cfg fsOk extOf mimeLookup req.method
        (urlParse req.url).pathname = respond405 := by
      unfold staticSection
      rw [hs, if_pos rfl, if_pos hm]
      rfl
    cases hcase : cfg.api with
    | none =>
      simp only [onRequest, hcase, hv, Bool.true_eq_false, if_false, hstat]
    | some apiRoot =>
      simp only [onRequest, hcase, hv, Bool.true_eq_false, if_false,
        hnomatch apiRoot hcase, hstat]
  refine ⟨hmain, fun n hmem => ?_⟩
  rw [hmain] at hmem
  simp [respond405] at hmem

/-- C8 witness: `POST /x` with the registry unset and static serving
enabled yields the 405 response. -/
theorem static_non_get_405_witness :
    validatePath (urlParse "/x").pathname = true ∧
    onRequest ⟨none, true, "text/plain"⟩ (fun _ => false) (fun _ => "")
        (fun _ => none) ⟨"POST", "/x", []⟩ = respond405 :=
  ⟨by decide,
    (static_non_get_405 ⟨none, true, "text/plain"⟩ (fun _ => false) (fun _ => "")
      (fun _ => none) ⟨"POST", "/x", []⟩ (by decide) (by decide) rfl
      (fun r h => by cases h)).1⟩

/-! ## Claims about URL parsing and validation -/

theorem takeWhile_append_of_all (pred : Char → Bool) (l₁ l₂ : List Char)
    (h : ∀ x ∈ l₁, pred x = true) :
    (l₁ ++ l₂).takeWhile pred = l₁ ++ l₂.takeWhile pred := by
  induction l₁ with
  | nil => rfl
  | cons c cs ih =>
    have hc : pred c = true := h c (List.mem_cons_self c cs)
    simp only [List.cons_append, List.takeWhile_cons_of_pos hc]
    rw [ih (fun x hx => h x (List.mem_cons_of_mem c hx))]

theorem takeWhile_append_stop (pred : Char → Bool) (l₁ l₂ : List Char) (c : Char)
    (h : ∀ x ∈ l₁, pred x = true) (hc : pred c = false) :
    (l₁ ++ c :: l₂).takeWhile pred = l₁ := by
  rw [takeWhile_append_of_all pred l₁ (c :: l₂) h]
  simp [List.takeWhile_cons, hc]

/-- For a request URL made of a pathname containing neither `?` nor `#`
followed by `?` and a query string, the parser extracts exactly that
pathname, whatever the query holds. -/
theorem urlParse_pathname_of_query (p q : String)
    (h1 : '?' ∉ p.data) (h2 : '#' ∉ p.data) :
    (urlParse (p ++ "?" ++ q)).pathname = p := by
  have hdata : (p ++ "?" ++ q).data = p.data ++ '?' :: q.data := by
    simp [String.data_append]
  unfold urlParse
  rw [hdata]
  have hhash : (p.data ++ '?' :: q.data).takeWhile (fun c => decide (c ≠ '#')) =
      p.data ++ '?' :: (q.data.takeWhile (fun c => decide (c ≠ '#'))) := by
    have hcons : ('?' :: q.data).takeWhile (fun c => decide (c ≠ '#')) =
        '?' :: q.data.takeWhile (fun c => decide (c ≠ '#')) :=
      List.takeWhile_cons_of_pos (by decide)
    rw [takeWhile_append_of_all (fun c => decide (c ≠ '#')) p.data ('?' :: q.data)
      (fun x hx => decide_eq_true (show x ≠ '#' from fun e => h2 (e ▸ hx))), hcons]
  simp only [hhash]
  rw [takeWhile_append_stop (fun c => decide (c ≠ '?')) p.data
    (q.data.takeWhile (fun c => decide (c ≠ '#'))) '?'
    (fun x hx => decide_eq_true (show x ≠ '?' from fun e => h1 (e ▸ hx))) (by decide)]

/-- C9: path validation depends only on the pathname component: for URLs
built from the same pathname (no `?` or `#` in it) and any two query
strings, the parsed pathname — hence the validation outcome — is identical,
and it equals the validation of the pathname alone, so characters appearing
only after the `?` (even ones the validator forbids, like `..` or `%`)
never cause a validation rejection. -/
theorem validation_ignores_query (p q₁ q₂ : String)
    (h1 : '?' ∉ p.data) (h2 : '#' ∉ p.data) :
    (urlParse (p ++ "?" ++ q₁)).pathname = (urlParse (p ++ "?" ++ q₂)).pathname ∧
    validatePath ((urlParse (p ++ "?" ++ q₁)).pathname) = validatePath p := by
  rw [urlParse_pathname_of_query p q₁ h1 h2, urlParse_pathname_of_query p q₂ h1 h2]
  exact ⟨rfl, rfl⟩

/-- C9 witness: the pathname `/a` with the two query strings `x=..%` and
`y= <` — both full of characters the validator forbids — parses to the same
pathname, and validation accepts it as it accepts `/a`. -/
theorem validation_ignores_query_witness :
    (urlParse ("/a" ++ "?" ++ "x=..%")).pathname = (urlParse ("/a" ++ "?" ++ "y= <")).pathname ∧
    validatePath ((urlParse ("/a" ++ "?" ++ "x=..%")).pathname) = validatePath "/a" :=
  validation_ignores_query "/a" "x=..%" "y= <" (by decide) (by decide)

end Microbi
